import Mathlib

/-!
Verification development for the gmapslocation repository (src/export.py).

The Python source is shallowly embedded below.  Database tables become
lists of rows, SQL queries become list operations, datetimes become
rationals (seconds), and spatial distances become rationals (meters).
The geodesic distance function, the SHA-256 digest and the uuid generator
are external library calls; they enter the embedding as explicit function
parameters (`geodist`, `hash`) or as a fresh-id counter, so every theorem
holds for the actual library functions as particular instances.
-/

/-! ## Notification debouncer (LocationUpdater.load_proximities_with_status) -/

/-- One row of the `personmodel` table as read by the proximity pipeline:
primary key `id`, `full_name`, coordinates, and the `datetime` column
(`none` models SQL NULL; a present value is the observation time in
seconds, as recovered by `get_datetime`). -/
structure PersonRow where
  id : String
  full_name : String
  latitude : Rat
  longitude : Rat
  datetime : Option Rat
deriving DecidableEq

/-- One row of the `proximities` table (`ProximityModel` in the source). -/
structure ProximityModel where
  id : String
  person1_id : String
  person2_id : String
  spatial_distance : Rat
  temporal_distance : Rat
  ts : Rat
deriving DecidableEq

/-- One row of the `proximity_notification` table (`ProximityNotification`
in the source); the random uuid primary key is omitted because no query
ever reads it. -/
structure ProxNotification where
  proximity_id : String
  status : String
  timestamp : Rat
deriving DecidableEq

/-- The data handed to `push.send` for a proximity alert: the status label,
the two full names in sorted order, and the trigger's representative
timestamp.  The source renders these into a message string (with a
Europe/Berlin strftime); the rendering is injective in these fields and is
not modelled further. -/
structure SentMsg where
  status : String
  name1 : String
  name2 : String
  ts : Rat
deriving DecidableEq

/-- Outcome of one `PushNotify.send` call: the HTTP post returned 200
(`ok`), returned a non-200 status (`failed`, the method returns `False`),
or raised a `requests` exception (`raised`). -/
inductive SendOutcome where
  | ok
  | failed
  | raised
deriving DecidableEq

/-- The per-record dictionary appended to `pair_history` in the source:
keys `ts`, `distance`, `id`. -/
structure RecEntry where
  ts : Rat
  distance : Rat
  id : String
deriving DecidableEq

/-- One `(status, ts, id)` triple of the source's `status_list`. -/
structure StatusEntry where
  status : String
  ts : Rat
  id : String
deriving DecidableEq

/-- One element of the `result` list returned by
`load_proximities_with_status`. -/
structure PairResult where
  pair : String × String
  history : List (String × Rat)
  current_status : Option String
deriving DecidableEq

/-- Lookup in the source's `person_map` dict (`{p.id: p.full_name}`) with a
positional default; a dict comprehension keeps the last write for a
duplicate key, hence the reversed search. -/
def personName (persons : List PersonRow) (pid dflt : String) : String :=
  match persons.reverse.find? (fun p => p.id == pid) with
  | some p => p.full_name
  | none => dflt

/-- Python string comparison: lexicographic on the code-point sequences
(`String.data` is the list of characters, ordered like Python's `<`). -/
def strLt (a b : String) : Bool :=
  decide (a.data < b.data)

/-- The `frozenset([name1, name2])` pair key, canonically represented as the
sorted pair (Python's `sorted(pair_key)` produces the same order). -/
def pairKey (n1 n2 : String) : String × String :=
  if strLt n2 n1 then (n2, n1) else (n1, n2)

/-- Append an entry to the group of key `k`, keeping first-occurrence key
order, exactly as `defaultdict(list)` does. -/
def addToGroups (gs : List ((String × String) × List RecEntry))
    (k : String × String) (e : RecEntry) :
    List ((String × String) × List RecEntry) :=
  match gs with
  | [] => [(k, [e])]
  | (k2, es) :: rest =>
    if k2 = k then (k2, es ++ [e]) :: rest else (k2, es) :: addToGroups rest k e

/-- The `pair_history` grouping loop of `load_proximities_with_status`. -/
def groupPairs (persons : List PersonRow) (proximities : List ProximityModel) :
    List ((String × String) × List RecEntry) :=
  proximities.foldl
    (fun gs p =>
      addToGroups gs
        (pairKey (personName persons p.person1_id "Unknown1")
          (personName persons p.person2_id "Unknown2"))
        ⟨p.ts, p.spatial_distance, p.id⟩)
    []

/-- Insert into a ts-sorted list, before the first entry with a strictly
larger key, matching the stability of Python's `sorted`. -/
def insertByTs (e : RecEntry) : List RecEntry → List RecEntry
  | [] => [e]
  | x :: xs => if e.ts ≤ x.ts then e :: x :: xs else x :: insertByTs e xs

/-- The stable sort `sorted(records, key=lambda r: r["ts"])`. -/
def sortByTs : List RecEntry → List RecEntry
  | [] => []
  | e :: es => insertByTs e (sortByTs es)

/-- Python's `xs[-n:]`. -/
def lastN (n : Nat) (xs : List α) : List α :=
  xs.drop (xs.length - n)

/-- The threshold classification of one kept record: `distance < close`
gives close, `elif distance > far` gives far, otherwise neutral. -/
def classify (close far : Rat) (r : RecEntry) : StatusEntry :=
  if r.distance < close then ⟨"close", r.ts, r.id⟩
  else if far < r.distance then ⟨"far", r.ts, r.id⟩
  else ⟨"neutral", r.ts, r.id⟩

/-- The source's `status_list`: classify the last 4 records in ascending
`ts` order. -/
def statusList (close far : Rat) (recs : List RecEntry) : List StatusEntry :=
  (lastN 4 (sortByTs recs)).map (classify close far)

/-- The source's `recent_statuses`: the last 2 entries of `status_list`
whose label is close or far. -/
def recentStatuses (close far : Rat) (recs : List RecEntry) : List StatusEntry :=
  lastN 2 ((statusList close far recs).filter
    (fun s => s.status == "close" || s.status == "far"))

/-- The per-pair element appended to `result`. -/
def mkResult (key : String × String) (sl : List StatusEntry)
    (change : Option String) : PairResult :=
  ⟨key, sl.map (fun s => (s.status, s.ts)), change⟩

/-- The body of the per-pair loop of `load_proximities_with_status`:
returns the updated notification table, the messages handed to
`push.send`, and the pair's `result` entry; a raised send exception
aborts with the attempted messages (`Except.error`), in which case the
notification row has not been committed. -/
def processPair (close far : Rat) (send : SentMsg → SendOutcome)
    (notifs : List ProxNotification) (key : String × String)
    (recs : List RecEntry) :
    Except (List SentMsg) (List ProxNotification × List SentMsg × PairResult) :=
  match recentStatuses close far recs with
  | [s1, s2] =>
    if s1.status = s2.status then
      if ((statusList close far recs).filter
          (fun s => s.status == s1.status)).length < 3 then
        if notifs.any (fun n => n.proximity_id == s2.id && n.status == s1.status) then
          Except.ok (notifs, [], mkResult key (statusList close far recs) (some s1.status))
        else
          match send ⟨s1.status, key.1, key.2, s2.ts⟩ with
          | SendOutcome.raised => Except.error [⟨s1.status, key.1, key.2, s2.ts⟩]
          | _ =>
            Except.ok (notifs ++ [⟨s2.id, s1.status, s2.ts⟩],
              [⟨s1.status, key.1, key.2, s2.ts⟩],
              mkResult key (statusList close far recs) (some s1.status))
      else Except.ok (notifs, [], mkResult key (statusList close far recs) none)
    else Except.ok (notifs, [], mkResult key (statusList close far recs) none)
  | _ => Except.ok (notifs, [], mkResult key (statusList close far recs) none)

/-- Sequential processing of the grouped pairs, threading the committed
notification table; an uncaught send exception stops the whole evaluation
(the source has no try/except around `push.send`), keeping only the rows
committed so far. -/
def loadGo (close far : Rat) (send : SentMsg → SendOutcome)
    (groups : List ((String × String) × List RecEntry))
    (notifs : List ProxNotification) (sent : List SentMsg)
    (results : List PairResult) :
    List ProxNotification × List SentMsg × Option (List PairResult) :=
  match groups with
  | [] => (notifs, sent, some results)
  | (key, recs) :: rest =>
    match processPair close far send notifs key recs with
    | Except.ok (n2, s2, r) => loadGo close far send rest n2 (sent ++ s2) (results ++ [r])
    | Except.error s2 => (notifs, sent ++ s2, none)

/-- `LocationUpdater.load_proximities_with_status`: full evaluation over
the stored proximities and persons, starting from the stored notification
table.  Returns the notification table after the run, the list of send
attempts, and `some results` unless a send exception aborted the run. -/
def load_proximities_with_status (close far : Rat) (send : SentMsg → SendOutcome)
    (persons : List PersonRow) (proximities : List ProximityModel)
    (notifs : List ProxNotification) :
    List ProxNotification × List SentMsg × Option (List PairResult) :=
  loadGo close far send (groupPairs persons proximities) notifs [] []

/-! ## Proximity computer (LocationUpdater.update_proximities) -/

/-- The SELECT of `update_proximities`: rows whose `datetime` is not NULL
and at least `now - 1 hour`, each paired with its `get_datetime()` value.
There is no upper bound in the source, so future timestamps pass too. -/
def selectRecent (now : Rat) (rows : List PersonRow) : List (PersonRow × Rat) :=
  rows.filterMap (fun p =>
    match p.datetime with
    | none => none
    | some t => if now - 3600 ≤ t then some (p, t) else none)

/-- One step of the `latest` dict construction: keep the entry with the
strictly larger `get_datetime()` per `full_name`, preserving dict key
insertion order. -/
def updLatest : List (String × (PersonRow × Rat)) → PersonRow × Rat →
    List (String × (PersonRow × Rat))
  | [], p => [(p.1.full_name, p)]
  | (n, q) :: rest, p =>
    if n = p.1.full_name then
      (if q.2 < p.2 then (n, p) else (n, q)) :: rest
    else (n, q) :: updLatest rest p

/-- The `latest` dict of `update_proximities`, as an association list in
key insertion order. -/
def latestByName (ps : List (PersonRow × Rat)) : List (String × (PersonRow × Rat)) :=
  ps.foldl updLatest []

/-- The source's `person_list = list(latest.values())`. -/
def latestPeople (now : Rat) (samples : List PersonRow) : List (PersonRow × Rat) :=
  (latestByName (selectRecent now samples)).map (fun e => e.2)

/-- `itertools.combinations(xs, 2)` in its enumeration order. -/
def combinations2 : List α → List (α × α)
  | [] => []
  | x :: xs => xs.map (fun y => (x, y)) ++ combinations2 xs

/-- The dedup query of `update_proximities`: a row exists whose
`(person1_id, person2_id)` equals the given pair in either order. -/
def hasPair (rows : List ProximityModel) (id1 id2 : String) : Bool :=
  rows.any (fun r =>
    (r.person1_id == id1 && r.person2_id == id2) ||
    (r.person1_id == id2 && r.person2_id == id1))

/-- The `ProximityModel(...)` row built for an admitted pair; `k` numbers
the row in place of the random uuid4 primary key (the primary key is never
read back by any query, only its uniqueness matters). -/
def mkProx (geodist : Rat × Rat → Rat × Rat → Rat) (k : Nat)
    (p1 p2 : PersonRow × Rat) : ProximityModel :=
  ⟨toString k, p1.1.id, p2.1.id,
    geodist (p1.1.latitude, p1.1.longitude) (p2.1.latitude, p2.1.longitude),
    |p1.2 - p2.2|, p1.2 + (p2.2 - p1.2) / 2⟩

/-- Body of the pair loop of `update_proximities`: skip if the timestamps
differ by more than 300 seconds, skip if a record for the unordered id
pair exists, otherwise append the new record. -/
def proxStep (geodist : Rat × Rat → Rat × Rat → Rat)
    (st : List ProximityModel × Nat)
    (pq : (PersonRow × Rat) × (PersonRow × Rat)) : List ProximityModel × Nat :=
  if 300 < |pq.1.2 - pq.2.2| then st
  else if hasPair st.1 pq.1.1.id pq.2.1.id then st
  else (st.1 ++ [mkProx geodist st.2 pq.1 pq.2], st.2 + 1)

/-- `LocationUpdater.update_proximities` over the stored samples and
proximity table; `geodist` stands for `geopy.distance.geodesic(..).meters`
and `k` seeds the fresh primary keys. -/
def update_proximities (geodist : Rat × Rat → Rat × Rat → Rat) (now : Rat)
    (k : Nat) (samples : List PersonRow) (rows : List ProximityModel) :
    List ProximityModel × Nat :=
  (combinations2 (latestPeople now samples)).foldl (proxStep geodist) (rows, k)

/-- Two proximity rows cover the same unordered pair of sample ids. -/
def samePersonPair (r s : ProximityModel) : Prop :=
  (r.person1_id = s.person1_id ∧ r.person2_id = s.person2_id) ∨
  (r.person1_id = s.person2_id ∧ r.person2_id = s.person1_id)

/-! ## Sample ledger (PersonModel.compute_hash, LocationUpdater.create_person) -/

/-- Python `str(v) if v is not None else ""` lifted over an optional. -/
def optStr (f : V → String) : Option V → String
  | none => ""
  | some v => f v

/-- Python `str` on a bool. -/
def pyStrBool : Bool → String
  | true => "True"
  | false => "False"

/-- The attribute tuple of one polled observation, exactly the fields
hashed by `PersonModel.compute_hash`.  `V` is the type of the numeric
fields (latitude, longitude, raw timestamp, accuracy) whose Python `str`
rendering is supplied separately. -/
structure Observation (V : Type) where
  full_name : String
  nickname : Option String
  latitude : V
  longitude : V
  timestamp : Option V
  accuracy : Option V
  address : Option String
  country_code : Option String
  charging : Option Bool
  battery_level : Option Int
deriving DecidableEq

/-- The pipe-joined serialization hashed by `compute_hash`: the ten fields
in source order, `None` rendered as the empty string. -/
def hashInput (strV : V → String) (o : Observation V) : String :=
  String.intercalate "|" [o.full_name, optStr (fun s => s) o.nickname,
    strV o.latitude, strV o.longitude, optStr strV o.timestamp,
    optStr strV o.accuracy, optStr (fun s => s) o.address,
    optStr (fun s => s) o.country_code, optStr pyStrBool o.charging,
    optStr (fun n => toString n) o.battery_level]

/-- `PersonModel.compute_hash`, with `hash` standing for the hex SHA-256
digest of the UTF-8 encoding. -/
def compute_hash (hash : String → String) (strV : V → String)
    (o : Observation V) : String :=
  hash (hashInput strV o)

/-- One stored `personmodel` row as created by `create_person`: the
content-hash id plus the observation attributes. -/
structure Sample (V : Type) where
  id : String
  obs : Observation V
deriving DecidableEq

/-- `LocationUpdater.create_person`: `session.get` by primary key returns
the existing row unchanged, otherwise the new row is inserted. -/
def create_person (hash : String → String) (strV : V → String)
    (ledger : List (Sample V)) (o : Observation V) : Sample V × List (Sample V) :=
  let i := compute_hash hash strV o
  match ledger.find? (fun s => s.id == i) with
  | some existing => (existing, ledger)
  | none => (⟨i, o⟩, ledger ++ [⟨i, o⟩])

/-! ## Ingest-time timestamp handling (PersonModel.__init__) -/

/-- The raw `_timestamp` value handed to `create_person`, as classified by
`PersonModel.__init__`: Python `None`; a `str` (the isinstance check skips
conversion); a non-string number of epoch milliseconds that
`datetime.fromtimestamp(float(raw)/1000)` converts; or a non-string value
on which `float(raw)` or the conversion raises `ValueError`/`TypeError`. -/
inductive PyTimestamp where
  | pnone
  | pstr (s : String)
  | pnum (ms : Int)
  | pbad
deriving DecidableEq

/-- A value of the `datetime` column: a real observation time (seconds),
or a raw string stored verbatim. -/
inductive StoredDatetime where
  | time (t : Rat)
  | raw (s : String)
deriving DecidableEq

/-- The `datetime` column value stored for a new Sample, following
`PersonModel.__init__` applied to the `create_person` keyword arguments
(which set `datetime=person_data["_timestamp"]` before conversion). -/
def ingestDatetime : PyTimestamp → Option StoredDatetime
  | PyTimestamp.pnone => none
  | PyTimestamp.pstr s => some (StoredDatetime.raw s)
  | PyTimestamp.pnum ms => some (StoredDatetime.time ((ms : Rat) / 1000))
  | PyTimestamp.pbad => none

/-! ## Failure-rate limiter (error_codes_in_last, _initialize_service) -/

/-- `LocationUpdater.error_codes_in_last`: is any `errors` row timestamped
within the trailing window?  `marks` is the list of stored error-row
timestamps (seconds). -/
def error_codes_in_last (marks : List Int) (now seconds : Int) : Bool :=
  marks.any (fun t => decide (now - seconds ≤ t))

/-- The except-branch of `LocationUpdater._initialize_service` when the
upstream `Service` constructor fails: if no error code was stored in the
last `60*60*12` seconds, store one and send a push notification (`true`);
otherwise stay silent (`false`). -/
def upstream_failure_alert (marks : List Int) (now : Int) : Bool × List Int :=
  if error_codes_in_last marks now (60 * 60 * 12) then (false, marks)
  else (true, now :: marks)

/-! ## Run cycle (LocationUpdater.run) -/

/-- Abstract effect counters for one `LocationUpdater.run` cycle: how many
times each of the three sub-steps ran.  The sub-step bodies are modelled
in full elsewhere in this file; here only the control flow of `run` is at
stake. -/
structure CycleState where
  ingestRuns : Nat
  forwardRuns : Nat
  proximityRuns : Nat
deriving DecidableEq

/-- Errors that can escape a cycle step. -/
inductive CycleError where
  | upstreamUnavailable
deriving DecidableEq

/-- `LocationUpdater.update_database`: resolving `self.service` runs
`_initialize_service`, which raises `ValueError("Invalid Cookies")` when
the upstream `Service` cannot be constructed; the raise happens before any
sample is ingested. -/
def update_database (upstreamOk : Bool) (st : CycleState) :
    Except CycleError CycleState :=
  if upstreamOk then Except.ok ⟨st.ingestRuns + 1, st.forwardRuns, st.proximityRuns⟩
  else Except.error CycleError.upstreamUnavailable

/-- `LocationUpdater.ensure_all_positions_uploaded` (the forwarding step),
as its effect on the cycle counters. -/
def ensure_all_positions_uploaded (st : CycleState) : CycleState :=
  ⟨st.ingestRuns, st.forwardRuns + 1, st.proximityRuns⟩

/-- `LocationUpdater.check_proximities` (proximity computation plus
debounce evaluation), as its effect on the cycle counters. -/
def check_proximities (st : CycleState) : CycleState :=
  ⟨st.ingestRuns, st.forwardRuns, st.proximityRuns + 1⟩

/-- `LocationUpdater.run`: the three steps in sequence with no try/except,
so an error from the first step propagates and the rest of the cycle is
skipped.  Returns the state reached and the escaped error, if any. -/
def LocationUpdater.run (upstreamOk : Bool) (st : CycleState) :
    CycleState × Option CycleError :=
  match update_database upstreamOk st with
  | Except.error e => (st, some e)
  | Except.ok st1 => (check_proximities (ensure_all_positions_uploaded st1), none)

/-! ## Scheduler (CronJob.run) -/

/-- In-model state of the `CronJob` loop: the wall clock, the number of
completed `target_function` invocations, and the number of exceptions the
`except` clause caught. -/
structure CronState where
  timeNow : Rat
  calls : Nat
  errorsCaught : Nat
deriving DecidableEq

/-- One iteration of the `while` body of `CronJob.run`.  `cycle n` gives,
for the `n`-th invocation, its duration and whether it raised; the
`except` clause swallows the raise either way, and the loop then waits
`interval - elapsed` if that is positive. -/
def cronStep (interval : Rat) (cycle : Nat → Rat × Bool) (st : CronState) :
    CronState :=
  let elapsed := (cycle st.calls).1
  let wait := interval - elapsed
  ⟨st.timeNow + elapsed + (if 0 < wait then wait else 0), st.calls + 1,
    st.errorsCaught + (if (cycle st.calls).2 then 1 else 0)⟩

/-- `CronJob.run`, indexed by the number of `while` tests performed: each
test either observes the stop event and exits, or runs one iteration.
With the stop event never set the loop runs every iteration. -/
def CronJob.run (interval : Rat) (cycle : Nat → Rat × Bool) (stop : Bool) :
    Nat → CronState → CronState
  | 0, st => st
  | Nat.succ n, st =>
    if stop then st
    else CronJob.run interval cycle stop n (cronStep interval cycle st)

/-! ## Helper lemmas -/

theorem cronRun_calls (interval : Rat) (cycle : Nat → Rat × Bool) :
    ∀ (fuel : Nat) (st : CronState),
      (CronJob.run interval cycle false fuel st).calls = st.calls + fuel := by
  intro fuel
  induction fuel with
  | zero => intro st; simp [CronJob.run]
  | succ n ih =>
    intro st
    simp only [CronJob.run, if_neg (by simp : ¬ false = true)]
    rw [ih]
    simp [cronStep]
    omega

theorem cronStep_time (interval : Rat) (cycle : Nat → Rat × Bool) (st : CronState) :
    (cronStep interval cycle st).timeNow =
      st.timeNow + (cycle st.calls).1 + max 0 (interval - (cycle st.calls).1) := by
  simp only [cronStep]
  rcases le_or_lt (interval - (cycle st.calls).1) 0 with h | h
  · rw [if_neg (not_lt.mpr h), max_eq_left h]
  · rw [if_pos h, max_eq_right (le_of_lt h)]

theorem find?_append_none {α : Type} {p : α → Bool} (l1 l2 : List α)
    (h : l1.find? p = none) : (l1 ++ l2).find? p = l2.find? p := by
  induction l1 with
  | nil => simp
  | cons a l ih =>
    cases hpa : p a with
    | true =>
      rw [List.find?_cons_of_pos _ hpa] at h
      exact absurd h (by simp)
    | false =>
      rw [List.find?_cons_of_neg _ (by simp [hpa])] at h
      rw [List.cons_append, List.find?_cons_of_neg _ (by simp [hpa])]
      exact ih h

/-! ## Claim theorems -/

/-- C1: for a pair whose stored ProximityRecords have spatial distances
[1200, 400, 300] meters in ascending representative-timestamp order,
thresholds close=500 and far=1000 classify them as [far, close, close];
the last two non-neutral entries agree on close and the count of close
among kept entries is 2 < 3, so exactly one notification is sent, for
close, and one notification row for the trigger record is persisted. -/
theorem debounce_far_close_close_sends_one_close_notification :
    load_proximities_with_status 500 1000 (fun _ => SendOutcome.ok)
      [⟨"a1", "A", 0, 0, none⟩, ⟨"b1", "B", 0, 0, none⟩]
      [⟨"p1", "a1", "b1", 1200, 0, 1⟩, ⟨"p2", "a1", "b1", 400, 0, 2⟩,
       ⟨"p3", "a1", "b1", 300, 0, 3⟩]
      [] =
    ([⟨"p3", "close", 3⟩], [⟨"close", "A", "B", 3⟩],
      some [⟨("A", "B"), [("far", 1), ("close", 2), ("close", 3)], some "close"⟩]) := by
  rfl

/-- C3: ingesting the same observation tuple twice stores exactly one
Sample; the second call returns the already stored row and leaves the
ledger unchanged, and the id is the digest of the pipe-join of the ten
fields with None serialized as the empty string. -/
theorem create_person_content_hash_idempotent {V : Type} (hash : String → String)
    (strV : V → String) (o : Observation V) (ledger : List (Sample V))
    (h : ∀ s ∈ ledger, s.id ≠ compute_hash hash strV o) :
    (create_person hash strV ledger o).2 =
      ledger ++ [⟨compute_hash hash strV o, o⟩] ∧
    create_person hash strV (create_person hash strV ledger o).2 o =
      create_person hash strV ledger o ∧
    (create_person hash strV ledger o).1.id = hash (hashInput strV o) ∧
    ((create_person hash strV ledger o).2.filter
      (fun s => s.id == compute_hash hash strV o)).length = 1 := by
  have hnone : ledger.find? (fun s => s.id == compute_hash hash strV o) = none := by
    rw [List.find?_eq_none]
    intro s hs
    simpa using h s hs
  have h1 : create_person hash strV ledger o =
      (⟨compute_hash hash strV o, o⟩,
        ledger ++ [⟨compute_hash hash strV o, o⟩]) := by
    simp [create_person, hnone]
  have hfind1 : (ledger ++ [(⟨compute_hash hash strV o, o⟩ : Sample V)]).find?
      (fun s => s.id == compute_hash hash strV o) =
      some ⟨compute_hash hash strV o, o⟩ := by
    rw [find?_append_none _ _ hnone]
    simp
  have h2 : create_person hash strV
      (ledger ++ [(⟨compute_hash hash strV o, o⟩ : Sample V)]) o =
      (⟨compute_hash hash strV o, o⟩,
        ledger ++ [⟨compute_hash hash strV o, o⟩]) := by
    simp [create_person, hfind1]
  have hfilter : (ledger ++ [(⟨compute_hash hash strV o, o⟩ : Sample V)]).filter
      (fun s => s.id == compute_hash hash strV o) =
      [⟨compute_hash hash strV o, o⟩] := by
    rw [List.filter_append]
    have hl : ledger.filter (fun s => s.id == compute_hash hash strV o) = [] := by
      rw [List.filter_eq_nil_iff]
      intro a ha
      simpa using h a ha
    rw [hl]
    simp
  refine ⟨by rw [h1], ?_, by rw [h1]; rfl, ?_⟩
  · rw [h1]
    exact h2
  · rw [h1]
    simp only [hfilter, List.length_singleton]

/-- C3 witness: a concrete observation ingested into the empty ledger via
the identity digest leaves exactly one matching row. -/
theorem create_person_idempotent_witness :
    ((create_person (fun s => s) (fun s => s) ([] : List (Sample String))
      ⟨"A", none, "1.0", "2.0", none, none, none, none, none, none⟩).2.filter
      (fun s => s.id == compute_hash (fun s => s) (fun s => s)
        ⟨"A", none, "1.0", "2.0", none, none, none, none, none, none⟩)).length = 1 :=
  (create_person_content_hash_idempotent (fun s => s) (fun s => s)
    ⟨"A", none, "1.0", "2.0", none, none, none, none, none, none⟩ [] (by simp)).2.2.2

/-- C6 counterexample: with the upstream source unavailable, the run cycle
does NOT execute the forwarding and proximity steps (their counters stay
0); the error escapes `run`, contradicting the claim that the remaining
cycle steps still execute. -/
theorem run_upstream_failure_skips_forward_and_proximity :
    LocationUpdater.run false ⟨0, 0, 0⟩ =
      (⟨0, 0, 0⟩, some CycleError.upstreamUnavailable) := rfl

/-- C6 amended: an upstream failure raised while resolving `self.service`
propagates out of `run`, aborting the cycle before the forwarding and
proximity steps; only a fully successful poll runs all three steps. -/
theorem run_upstream_failure_aborts_cycle :
    (∀ st : CycleState,
      LocationUpdater.run false st = (st, some CycleError.upstreamUnavailable)) ∧
    (∀ st : CycleState,
      LocationUpdater.run true st =
        (⟨st.ingestRuns + 1, st.forwardRuns + 1, st.proximityRuns + 1⟩, none)) :=
  ⟨fun _ => rfl, fun _ => rfl⟩

/-- C7: the scheduler loop never exits because of an error from the cycle
function: with the stop event unset it performs every iteration (calls
grow by exactly the fuel, whatever the cycle's raise pattern, so a
cycle raising first and succeeding second is still invoked at least twice
over two iterations), and each iteration sleeps max(0, interval -
elapsed). -/
theorem cronjob_loop_survives_cycle_errors :
    (∀ (interval : Rat) (cycle : Nat → Rat × Bool) (fuel : Nat) (st : CronState),
      (CronJob.run interval cycle false fuel st).calls = st.calls + fuel) ∧
    (∀ (interval : Rat) (cycle : Nat → Rat × Bool) (st : CronState),
      (cronStep interval cycle st).timeNow =
        st.timeNow + (cycle st.calls).1 + max 0 (interval - (cycle st.calls).1)) ∧
    (∀ (interval : Rat) (cycle : Nat → Rat × Bool),
      2 ≤ (CronJob.run interval cycle false 2 ⟨0, 0, 0⟩).calls) :=
  ⟨fun i c f st => cronRun_calls i c f st,
   fun i c st => cronStep_time i c st,
   fun i c => by rw [cronRun_calls]⟩

/-- C8: upstream-failure notifications are limited to one per 12-hour
window: with no prior failure mark in the window the first check records a
mark and signals a notification, and a second check within the next hour
stays silent. -/
theorem upstream_failure_rate_limited (marks : List Int) (t1 t2 : Int)
    (h0 : ∀ t ∈ marks, t < t1 - 43200) (h1 : t1 ≤ t2) (h2 : t2 ≤ t1 + 3600) :
    (upstream_failure_alert marks t1).1 = true ∧
    (upstream_failure_alert (upstream_failure_alert marks t1).2 t2).1 = false := by
  have hfirst : error_codes_in_last marks t1 43200 = false := by
    simp only [error_codes_in_last, List.any_eq_false, decide_eq_true_eq]
    intro t ht
    have := h0 t ht
    omega
  have hsecond : error_codes_in_last (t1 :: marks) t2 43200 = true := by
    simp only [error_codes_in_last, List.any_cons, Bool.or_eq_true, decide_eq_true_eq]
    exact Or.inl (by omega)
  have hstep : (upstream_failure_alert marks t1).2 = t1 :: marks := by
    simp [upstream_failure_alert, hfirst]
  constructor
  · simp [upstream_failure_alert, hfirst]
  · rw [hstep]
    simp [upstream_failure_alert, hsecond]

/-- C8 witness: two checks one hour apart, starting from an empty error
table, notify exactly once. -/
theorem upstream_failure_rate_limited_witness :
    (upstream_failure_alert [] 0).1 = true ∧
    (upstream_failure_alert (upstream_failure_alert [] 0).2 3600).1 = false :=
  upstream_failure_rate_limited [] 0 3600 (by simp) (by omega) (by omega)

/-- C9 counterexample: an observation whose raw timestamp is a malformed
string is stored with the string verbatim in the datetime column, not with
a null observation time. -/
theorem ingest_string_timestamp_stored_verbatim :
    ingestDatetime (PyTimestamp.pstr "not-a-timestamp") =
      some (StoredDatetime.raw "not-a-timestamp") ∧
    ingestDatetime (PyTimestamp.pstr "not-a-timestamp") ≠ none :=
  ⟨rfl, by simp [ingestDatetime]⟩

/-- C9 amended: only non-string timestamps whose conversion raises (and
absent timestamps) are stored with a null datetime, and a null-datetime
Sample is never selected into the proximity computation. -/
theorem ingest_unconvertible_timestamp_null_and_excluded :
    ingestDatetime PyTimestamp.pbad = none ∧
    ingestDatetime PyTimestamp.pnone = none ∧
    ∀ (now : Rat) (rows : List PersonRow) (pr : PersonRow × Rat),
      pr ∈ selectRecent now rows → pr.1.datetime ≠ none := by
  refine ⟨rfl, rfl, ?_⟩
  intro now rows pr hpr
  simp only [selectRecent, List.mem_filterMap] at hpr
  obtain ⟨p, _, hmatch⟩ := hpr
  cases hd : p.datetime with
  | none =>
    rw [hd] at hmatch
    simp at hmatch
  | some t =>
    rw [hd] at hmatch
    simp only at hmatch
    split at hmatch
    · injection hmatch with hpr2
      rw [← hpr2]
      simp [hd]
    · exact absurd hmatch (by simp)

/-- C9 witness: a sample with a real observation time is selected, and the
theorem certifies its datetime is non-null. -/
theorem ingest_null_excluded_witness :
    ((⟨"a", "A", 0, 0, some 0⟩ : PersonRow), (0 : Rat)).1.datetime ≠ none :=
  ingest_unconvertible_timestamp_null_and_excluded.2.2 0
    [⟨"a", "A", 0, 0, some 0⟩] (⟨"a", "A", 0, 0, some 0⟩, 0)
    (by
      simp only [selectRecent, List.mem_filterMap]
      refine ⟨⟨"a", "A", 0, 0, some 0⟩, by simp, ?_⟩
      show (if (0 : Rat) - 3600 ≤ 0 then
          some ((⟨"a", "A", 0, 0, some 0⟩ : PersonRow), (0 : Rat)) else none) =
        some (⟨"a", "A", 0, 0, some 0⟩, 0)
      rw [if_pos (by norm_num)])

/-! ## Proximity-step lemmas (C4, C10) -/

theorem hasPair_mono (rows tl : List ProximityModel) (id1 id2 : String)
    (h : hasPair rows id1 id2 = true) : hasPair (rows ++ tl) id1 id2 = true := by
  simp only [hasPair] at h
  simp only [hasPair, List.any_append, Bool.or_eq_true]
  exact Or.inl h

theorem proxFold_spec (geodist : Rat × Rat → Rat × Rat → Rat) :
    ∀ (pairs : List ((PersonRow × Rat) × (PersonRow × Rat)))
      (rows : List ProximityModel) (k : Nat),
    ∃ tl k2,
      pairs.foldl (proxStep geodist) (rows, k) = (rows ++ tl, k2) ∧
      (∀ r ∈ tl, ∃ pq, pq ∈ pairs ∧ r.person1_id = pq.1.1.id ∧
        r.person2_id = pq.2.1.id ∧ ¬ (300 < |pq.1.2 - pq.2.2|)) ∧
      List.Pairwise (fun r s => ¬ samePersonPair r s) tl ∧
      (∀ r ∈ tl, ∀ s ∈ rows, ¬ samePersonPair s r) := by
  intro pairs
  induction pairs with
  | nil =>
    intro rows k
    exact ⟨[], k, by simp, by simp, by simp, by simp⟩
  | cons pq rest ih =>
    intro rows k
    rw [List.foldl_cons]
    by_cases h1 : 300 < |pq.1.2 - pq.2.2|
    · rw [show proxStep geodist (rows, k) pq = (rows, k) from by simp [proxStep, h1]]
      obtain ⟨tl, k2, heq, hmem, hpw, hcross⟩ := ih rows k
      refine ⟨tl, k2, heq, ?_, hpw, hcross⟩
      intro r hr
      obtain ⟨pq2, hpq2, hrest⟩ := hmem r hr
      exact ⟨pq2, List.mem_cons_of_mem _ hpq2, hrest⟩
    · by_cases h2 : hasPair rows pq.1.1.id pq.2.1.id = true
      · rw [show proxStep geodist (rows, k) pq = (rows, k) from by
          simp [proxStep, h1, h2]]
        obtain ⟨tl, k2, heq, hmem, hpw, hcross⟩ := ih rows k
        refine ⟨tl, k2, heq, ?_, hpw, hcross⟩
        intro r hr
        obtain ⟨pq2, hpq2, hrest⟩ := hmem r hr
        exact ⟨pq2, List.mem_cons_of_mem _ hpq2, hrest⟩
      · rw [show proxStep geodist (rows, k) pq =
            (rows ++ [mkProx geodist k pq.1 pq.2], k + 1) from by
          simp [proxStep, h1, h2]]
        obtain ⟨tl, k2, heq, hmem, hpw, hcross⟩ :=
          ih (rows ++ [mkProx geodist k pq.1 pq.2]) (k + 1)
        refine ⟨mkProx geodist k pq.1 pq.2 :: tl, k2, ?_, ?_, ?_, ?_⟩
        · rw [heq, List.append_assoc, List.singleton_append]
        · intro r hr
          rcases List.mem_cons.mp hr with rfl | hr2
          · exact ⟨pq, List.mem_cons_self _ _, rfl, rfl, h1⟩
          · obtain ⟨pq2, hpq2, hrest⟩ := hmem r hr2
            exact ⟨pq2, List.mem_cons_of_mem _ hpq2, hrest⟩
        · rw [List.pairwise_cons]
          exact ⟨fun r hr => hcross r hr _ (by simp), hpw⟩
        · intro r hr s hs
          rcases List.mem_cons.mp hr with rfl | hr2
          · intro hsame
            apply h2
            simp only [samePersonPair, mkProx] at hsame
            simp only [hasPair, List.any_eq_true, Bool.or_eq_true, Bool.and_eq_true,
              beq_iff_eq]
            exact ⟨s, hs, by tauto⟩
          · exact hcross r hr2 s (List.mem_append_left _ hs)

theorem proxFold_post (geodist : Rat × Rat → Rat × Rat → Rat) :
    ∀ (pairs : List ((PersonRow × Rat) × (PersonRow × Rat)))
      (st : List ProximityModel × Nat) (pq : (PersonRow × Rat) × (PersonRow × Rat)),
      pq ∈ pairs →
      300 < |pq.1.2 - pq.2.2| ∨
      hasPair (pairs.foldl (proxStep geodist) st).1 pq.1.1.id pq.2.1.id = true := by
  intro pairs
  induction pairs with
  | nil =>
    intro st pq h
    simp at h
  | cons pq0 rest ih =>
    intro st pq hmem
    rw [List.foldl_cons]
    rcases List.mem_cons.mp hmem with rfl | h2
    · by_cases h1 : 300 < |pq.1.2 - pq.2.2|
      · exact Or.inl h1
      · right
        have hstep : hasPair (proxStep geodist st pq).1 pq.1.1.id pq.2.1.id = true := by
          by_cases hp : hasPair st.1 pq.1.1.id pq.2.1.id = true
          · by_cases h1b : (300 : Rat) < |pq.1.2 - pq.2.2|
            · exact absurd h1b h1
            · rw [show (proxStep geodist st pq).1 = st.1 from by
                simp [proxStep, h1b, hp]]
              exact hp
          · rw [show (proxStep geodist st pq).1 = st.1 ++ [mkProx geodist st.2 pq.1 pq.2] from by
              simp [proxStep, h1, hp]]
            simp [hasPair, List.any_append, mkProx]
        obtain ⟨tl, k2, heq, -, -, -⟩ :=
          proxFold_spec geodist rest (proxStep geodist st pq).1 (proxStep geodist st pq).2
        rw [show ((proxStep geodist st pq).1, (proxStep geodist st pq).2) =
            proxStep geodist st pq from rfl] at heq
        rw [heq]
        exact hasPair_mono _ _ _ _ hstep
    · exact ih (proxStep geodist st pq0) pq h2

theorem proxFold_noop (geodist : Rat × Rat → Rat × Rat → Rat) :
    ∀ (pairs : List ((PersonRow × Rat) × (PersonRow × Rat)))
      (st : List ProximityModel × Nat),
      (∀ pq ∈ pairs, 300 < |pq.1.2 - pq.2.2| ∨
        hasPair st.1 pq.1.1.id pq.2.1.id = true) →
      pairs.foldl (proxStep geodist) st = st := by
  intro pairs
  induction pairs with
  | nil =>
    intro st _
    simp
  | cons pq rest ih =>
    intro st h
    have hstep : proxStep geodist st pq = st := by
      rcases h pq (List.mem_cons_self _ _) with h1 | h2
      · simp [proxStep, h1]
      · simp [proxStep, h2]
    rw [List.foldl_cons, hstep]
    exact ih st (fun pq2 hpq2 => h pq2 (List.mem_cons_of_mem _ hpq2))

theorem updLatest_keys :
    ∀ (acc : List (String × (PersonRow × Rat))) (p : PersonRow × Rat)
      (e : String × (PersonRow × Rat)), e ∈ updLatest acc p →
      e.1 ∈ acc.map (fun a => a.1) ∨ e.1 = p.1.full_name := by
  intro acc
  induction acc with
  | nil =>
    intro p e he
    simp only [updLatest, List.mem_singleton] at he
    right
    rw [he]
  | cons a rest ih =>
    intro p e he
    obtain ⟨n, q⟩ := a
    simp only [updLatest] at he
    by_cases hn : n = p.1.full_name
    · rw [if_pos hn] at he
      by_cases hlt : q.2 < p.2
      · rw [if_pos hlt] at he
        rcases List.mem_cons.mp he with rfl | h2
        · left
          simp
        · left
          simp only [List.map_cons, List.mem_cons]
          right
          exact List.mem_map_of_mem _ h2
      · rw [if_neg hlt] at he
        rcases List.mem_cons.mp he with rfl | h2
        · left
          simp
        · left
          simp only [List.map_cons, List.mem_cons]
          right
          exact List.mem_map_of_mem _ h2
    · rw [if_neg hn] at he
      rcases List.mem_cons.mp he with rfl | h2
      · left
        simp
      · rcases ih p e h2 with h3 | h3
        · left
          simp only [List.map_cons, List.mem_cons]
          right
          exact h3
        · right
          exact h3

theorem updLatest_good :
    ∀ (acc : List (String × (PersonRow × Rat))) (p : PersonRow × Rat),
      List.Pairwise (fun a b => a.1 ≠ b.1) acc →
      (∀ e ∈ acc, e.2.1.full_name = e.1) →
      List.Pairwise (fun a b => a.1 ≠ b.1) (updLatest acc p) ∧
      (∀ e ∈ updLatest acc p, e.2.1.full_name = e.1) := by
  intro acc
  induction acc with
  | nil =>
    intro p _ _
    constructor
    · simp [updLatest]
    · intro e he
      simp only [updLatest, List.mem_singleton] at he
      rw [he]
  | cons a rest ih =>
    intro p hpw hnm
    obtain ⟨n, q⟩ := a
    rw [List.pairwise_cons] at hpw
    obtain ⟨hhead, htail⟩ := hpw
    by_cases hn : n = p.1.full_name
    · by_cases hlt : q.2 < p.2
      · simp only [updLatest, if_pos hn, if_pos hlt]
        constructor
        · rw [List.pairwise_cons]
          exact ⟨fun b hb => hhead b hb, htail⟩
        · intro e he
          rcases List.mem_cons.mp he with rfl | h2
          · exact hn.symm
          · exact hnm e (List.mem_cons_of_mem _ h2)
      · simp only [updLatest, if_pos hn, if_neg hlt]
        constructor
        · rw [List.pairwise_cons]
          exact ⟨fun b hb => hhead b hb, htail⟩
        · intro e he
          rcases List.mem_cons.mp he with rfl | h2
          · exact hnm (n, q) (List.mem_cons_self _ _)
          · exact hnm e (List.mem_cons_of_mem _ h2)
    · simp only [updLatest, if_neg hn]
      obtain ⟨ihpw, ihnm⟩ := ih p htail (fun e he => hnm e (List.mem_cons_of_mem _ he))
      constructor
      · rw [List.pairwise_cons]
        refine ⟨?_, ihpw⟩
        intro b hb
        rcases updLatest_keys rest p b hb with h3 | h3
        · obtain ⟨a2, ha2, hba⟩ := List.mem_map.mp h3
          rw [← hba]
          exact hhead a2 ha2
        · rw [h3]
          exact hn
      · intro e he
        rcases List.mem_cons.mp he with rfl | h2
        · exact hnm (n, q) (List.mem_cons_self _ _)
        · exact ihnm e h2

theorem foldl_updLatest_good :
    ∀ (ps : List (PersonRow × Rat)) (acc : List (String × (PersonRow × Rat))),
      List.Pairwise (fun a b => a.1 ≠ b.1) acc →
      (∀ e ∈ acc, e.2.1.full_name = e.1) →
      List.Pairwise (fun a b => a.1 ≠ b.1) (ps.foldl updLatest acc) ∧
      (∀ e ∈ ps.foldl updLatest acc, e.2.1.full_name = e.1) := by
  intro ps
  induction ps with
  | nil =>
    intro acc h1 h2
    exact ⟨h1, h2⟩
  | cons p rest ih =>
    intro acc h1 h2
    rw [List.foldl_cons]
    obtain ⟨g1, g2⟩ := updLatest_good acc p h1 h2
    exact ih (updLatest acc p) g1 g2

theorem latestPeople_names_pairwise (now : Rat) (samples : List PersonRow) :
    List.Pairwise (fun a b => a.1.full_name ≠ b.1.full_name)
      (latestPeople now samples) := by
  rw [latestPeople, latestByName, List.pairwise_map]
  obtain ⟨h1, h2⟩ := foldl_updLatest_good (selectRecent now samples) [] (by simp) (by simp)
  refine h1.imp_of_mem ?_
  intro a b ha hb hne
  rw [h2 a ha, h2 b hb]
  exact hne

theorem combinations2_rel {α : Type} (R : α → α → Prop) :
    ∀ (l : List α), List.Pairwise R l → ∀ pq ∈ combinations2 l, R pq.1 pq.2 := by
  intro l
  induction l with
  | nil =>
    intro _ pq h
    simp [combinations2] at h
  | cons x xs ih =>
    intro hpw pq hpq
    rw [List.pairwise_cons] at hpw
    simp only [combinations2] at hpq
    rcases List.mem_append.mp hpq with h1 | h1
    · obtain ⟨y, hy, rfl⟩ := List.mem_map.mp h1
      exact hpw.1 y hy
    · exact ih hpw.2 pq h1

/-- C4: at most one ProximityRecord per unordered pair of sample ids: the
pairwise-distinctness invariant of the proximity table is preserved by the
proximity step, and running the step twice over an unchanged latest-sample
set (same samples, same clock) is a no-op the second time. -/
theorem update_proximities_pair_dedup_idempotent
    (geodist : Rat × Rat → Rat × Rat → Rat) (now : Rat) (k : Nat)
    (samples : List PersonRow) (rows : List ProximityModel) :
    (List.Pairwise (fun r s => ¬ samePersonPair r s) rows →
      List.Pairwise (fun r s => ¬ samePersonPair r s)
        (update_proximities geodist now k samples rows).1) ∧
    update_proximities geodist now (update_proximities geodist now k samples rows).2
      samples (update_proximities geodist now k samples rows).1 =
      update_proximities geodist now k samples rows := by
  obtain ⟨tl, k2, heq, hmem, hpw, hcross⟩ :=
    proxFold_spec geodist (combinations2 (latestPeople now samples)) rows k
  constructor
  · intro hrows
    simp only [update_proximities]
    rw [heq]
    simp only
    rw [List.pairwise_append]
    exact ⟨hrows, hpw, fun x hx y hy => hcross y hy x hx⟩
  · show (combinations2 (latestPeople now samples)).foldl (proxStep geodist)
      ((update_proximities geodist now k samples rows).1,
        (update_proximities geodist now k samples rows).2) =
      update_proximities geodist now k samples rows
    rw [show ((update_proximities geodist now k samples rows).1,
        (update_proximities geodist now k samples rows).2) =
        update_proximities geodist now k samples rows from rfl]
    apply proxFold_noop
    intro pq hpq
    rcases proxFold_post geodist (combinations2 (latestPeople now samples))
      (rows, k) pq hpq with h1 | h2
    · exact Or.inl h1
    · exact Or.inr h2

/-- C4 witness: the invariant holds for the concrete empty store after a
run of the proximity step. -/
theorem update_proximities_pair_dedup_witness :
    List.Pairwise (fun r s => ¬ samePersonPair r s)
      (update_proximities (fun _ _ => 0) 0 0 [] []).1 :=
  (update_proximities_pair_dedup_idempotent (fun _ _ => 0) 0 0 [] []).1 (by simp)

/-- C10: the latest-sample set has pairwise distinct full names, every
record created by one proximity run pairs the latest samples of two
distinct full names (it arises from a combinations pair of the latest
people), and the created records are pairwise distinct as unordered
sample-id pairs, so a single run creates at most one record per unordered
pair of people. -/
theorem update_proximities_records_from_latest_pairs
    (geodist : Rat × Rat → Rat × Rat → Rat) (now : Rat) (k : Nat)
    (samples : List PersonRow) (rows : List ProximityModel) :
    List.Pairwise (fun a b => a.1.full_name ≠ b.1.full_name)
      (latestPeople now samples) ∧
    (∀ r ∈ ((update_proximities geodist now k samples rows).1).drop rows.length,
      ∃ pq, pq ∈ combinations2 (latestPeople now samples) ∧
        r.person1_id = pq.1.1.id ∧ r.person2_id = pq.2.1.id ∧
        pq.1.1.full_name ≠ pq.2.1.full_name) ∧
    List.Pairwise (fun r s => ¬ samePersonPair r s)
      (((update_proximities geodist now k samples rows).1).drop rows.length) := by
  obtain ⟨tl, k2, heq, hmem, hpw, hcross⟩ :=
    proxFold_spec geodist (combinations2 (latestPeople now samples)) rows k
  have hdrop : ((update_proximities geodist now k samples rows).1).drop rows.length = tl := by
    simp only [update_proximities]
    rw [heq]
    simp only
    exact List.drop_left rows tl
  refine ⟨latestPeople_names_pairwise now samples, ?_, ?_⟩
  · rw [hdrop]
    intro r hr
    obtain ⟨pq, hpq, hid1, hid2, -⟩ := hmem r hr
    exact ⟨pq, hpq, hid1, hid2,
      combinations2_rel (fun a b => a.1.full_name ≠ b.1.full_name) _
        (latestPeople_names_pairwise now samples) pq hpq⟩
  · rw [hdrop]
    exact hpw

/-- C10 witness: for two concrete people the single created record matches
a combinations pair of the latest people with distinct names. -/
theorem update_proximities_records_witness :
    ∃ pq, pq ∈ combinations2 (latestPeople 0
        [⟨"a1", "A", 0, 0, some 10⟩, ⟨"b1", "B", 0, 0, some 20⟩]) ∧
      (⟨"0", "a1", "b1", 0, 10, 15⟩ : ProximityModel).person1_id = pq.1.1.id ∧
      (⟨"0", "a1", "b1", 0, 10, 15⟩ : ProximityModel).person2_id = pq.2.1.id ∧
      pq.1.1.full_name ≠ pq.2.1.full_name :=
  (update_proximities_records_from_latest_pairs (fun _ _ => 0) 0 0
    [⟨"a1", "A", 0, 0, some 10⟩, ⟨"b1", "B", 0, 0, some 20⟩] []).2.1
    ⟨"0", "a1", "b1", 0, 10, 15⟩
    (by
      have h : ((update_proximities (fun _ _ => (0 : Rat)) 0 0
          [⟨"a1", "A", 0, 0, some 10⟩, ⟨"b1", "B", 0, 0, some 20⟩] []).1) =
          [⟨"0", "a1", "b1", 0, 10, 15⟩] := by
        simp only [update_proximities, latestPeople, selectRecent, latestByName,
          List.filterMap, List.foldl, List.map, combinations2]
        norm_num [updLatest, combinations2, List.foldl, List.map, proxStep,
          hasPair, mkProx]
        rfl
      rw [List.length_nil, List.drop_zero, h]
      exact List.mem_singleton_self _)

/-! ## Debouncer lemmas (C2, C5) -/

/-- C2: if the last two non-neutral classified entries agree on a label L
and L occurs at least 3 times among the at-most-4 kept classified entries
(neutral included), the pair is an already-announced steady state: nothing
is sent, no notification row is written, and no state change is reported. -/
theorem debounce_steady_state_count_ge_three_suppresses
    (close far : Rat) (send : SentMsg → SendOutcome)
    (notifs : List ProxNotification) (key : String × String)
    (recs : List RecEntry) (s1 s2 : StatusEntry)
    (h1 : recentStatuses close far recs = [s1, s2])
    (h2 : s1.status = s2.status)
    (h3 : 3 ≤ ((statusList close far recs).filter
      (fun s => s.status == s1.status)).length) :
    processPair close far send notifs key recs =
      Except.ok (notifs, [], mkResult key (statusList close far recs) none) := by
  unfold processPair
  split
  · rename_i s1b s2b heq
    rw [h1] at heq
    injection heq with e1 etail
    injection etail with e2 _
    subst e1
    subst e2
    rw [if_pos h2, if_neg (not_lt.mpr h3)]
  · rename_i hne
    exact absurd h1 (hne s1 s2)

/-- C2 witness: extending the [1200, 400, 300] series with a fourth
close-labeled record (count of close now 3 among the kept 4) produces no
notification. -/
theorem debounce_steady_state_suppression_witness :
    processPair 500 1000 (fun _ => SendOutcome.ok) [] ("A", "B")
      [⟨1, 1200, "p1"⟩, ⟨2, 400, "p2"⟩, ⟨3, 300, "p3"⟩, ⟨4, 300, "p4"⟩] =
      Except.ok ([], [], mkResult ("A", "B")
        (statusList 500 1000
          [⟨1, 1200, "p1"⟩, ⟨2, 400, "p2"⟩, ⟨3, 300, "p3"⟩, ⟨4, 300, "p4"⟩]) none) :=
  debounce_steady_state_count_ge_three_suppresses 500 1000 _ [] ("A", "B") _
    ⟨"close", 3, "p3"⟩ ⟨"close", 4, "p4"⟩ (by decide) rfl (by decide)

/-- C5 counterexample: when the notification transport reports failure
(send returns False, a non-200 response), the alert row for the trigger
record is persisted anyway — the boolean return of `push.send` is ignored
— so the next evaluation does not retry the send, contradicting the
claim. -/
theorem notification_failed_send_still_persists_alert :
    (load_proximities_with_status 500 1000 (fun _ => SendOutcome.failed)
      [⟨"a1", "A", 0, 0, none⟩, ⟨"b1", "B", 0, 0, none⟩]
      [⟨"p1", "a1", "b1", 1200, 0, 1⟩, ⟨"p2", "a1", "b1", 400, 0, 2⟩,
       ⟨"p3", "a1", "b1", 300, 0, 3⟩] []).1 = [⟨"p3", "close", 3⟩] := by
  rfl

theorem processPair_raised_cases (close far : Rat) (send : SentMsg → SendOutcome)
    (notifs : List ProxNotification) (key : String × String) (recs : List RecEntry)
    (h : ∀ m, send m = SendOutcome.raised) :
    (∃ r, processPair close far send notifs key recs = Except.ok (notifs, [], r)) ∨
    (∃ e, processPair close far send notifs key recs = Except.error e) := by
  unfold processPair
  split
  · rename_i s1 s2 heq
    by_cases h2 : s1.status = s2.status
    · rw [if_pos h2]
      by_cases h3 : ((statusList close far recs).filter
          (fun s => s.status == s1.status)).length < 3
      · rw [if_pos h3]
        by_cases h4 : notifs.any
            (fun n => n.proximity_id == s2.id && n.status == s1.status) = true
        · rw [if_pos h4]
          exact Or.inl ⟨_, rfl⟩
        · rw [if_neg h4, h ⟨s1.status, key.1, key.2, s2.ts⟩]
          exact Or.inr ⟨_, rfl⟩
      · rw [if_neg h3]
        exact Or.inl ⟨_, rfl⟩
    · rw [if_neg h2]
      exact Or.inl ⟨_, rfl⟩
  · exact Or.inl ⟨_, rfl⟩

theorem loadGo_raised_no_persist (close far : Rat) (send : SentMsg → SendOutcome)
    (h : ∀ m, send m = SendOutcome.raised) :
    ∀ (groups : List ((String × String) × List RecEntry))
      (notifs : List ProxNotification) (sent : List SentMsg)
      (results : List PairResult),
      (loadGo close far send groups notifs sent results).1 = notifs := by
  intro groups
  induction groups with
  | nil =>
    intro notifs sent results
    rfl
  | cons g rest ih =>
    intro notifs sent results
    obtain ⟨key, recs⟩ := g
    simp only [loadGo]
    rcases processPair_raised_cases close far send notifs key recs h with
      ⟨r, hr⟩ | ⟨e, he⟩
    · rw [hr]
      exact ih notifs (sent ++ []) (results ++ [r])
    · rw [he]

/-- C5 amended: only a raised transport exception leaves the alert row
unpersisted: with a raising transport the stored notification table is
unchanged, so a later evaluation of the same pair and state behaves
exactly as if the failed one had never happened and retries the send. -/
theorem notification_raised_send_not_persisted_and_retried
    (close far : Rat) (send : SentMsg → SendOutcome)
    (persons : List PersonRow) (proximities : List ProximityModel)
    (notifs : List ProxNotification)
    (h : ∀ m, send m = SendOutcome.raised) :
    (load_proximities_with_status close far send persons proximities notifs).1 =
      notifs ∧
    ∀ send2 : SentMsg → SendOutcome,
      load_proximities_with_status close far send2 persons proximities
        ((load_proximities_with_status close far send persons proximities notifs).1) =
      load_proximities_with_status close far send2 persons proximities notifs := by
  have h1 : (load_proximities_with_status close far send persons proximities
      notifs).1 = notifs :=
    loadGo_raised_no_persist close far send h (groupPairs persons proximities)
      notifs [] []
  exact ⟨h1, fun send2 => by rw [h1]⟩

/-- C5 amended witness: on the concrete [1200, 400, 300] scenario a raising
transport persists nothing. -/
theorem notification_raised_send_witness :
    (load_proximities_with_status 500 1000 (fun _ => SendOutcome.raised)
      [⟨"a1", "A", 0, 0, none⟩, ⟨"b1", "B", 0, 0, none⟩]
      [⟨"p1", "a1", "b1", 1200, 0, 1⟩, ⟨"p2", "a1", "b1", 400, 0, 2⟩,
       ⟨"p3", "a1", "b1", 300, 0, 3⟩] []).1 = [] :=
  (notification_raised_send_not_persisted_and_retried 500 1000 _ _ _ []
    (fun _ => rfl)).1
